import Mathlib

/-!
Verification of the microb configuration resolver, script compiler and build
orchestrator (github.com/charbonats/microb).

Go strings are modelled as lists of characters (`GoStr`).  Go maps appear in
two roles: association lists where the program only looks keys up, and — for
`utils.Unique`, which materialises a map and then iterates it — a relational
model (`UniqueSpec`) plus an explicit iteration-order parameter, because Go
map iteration order is unspecified and changes between runs.
-/

deriving instance DecidableEq for Except

namespace Microbuild

/-- Go strings are modelled as lists of characters. -/
abbrev GoStr := List Char

/-- Build a `GoStr` from a Lean string literal. -/
def gs (s : String) : GoStr := s.toList

/-- ASCII whitespace accepted by Go strings.TrimSpace (unicode.IsSpace,
restricted to the ASCII range used by this program). -/
def goIsSpace (c : Char) : Bool :=
  c = ' ' || c = '\t' || c = '\n' || c = Char.ofNat 11 || c = Char.ofNat 12 || c = '\r'

/-- Model of Go strings.TrimSpace. -/
def trimSpace (s : GoStr) : GoStr :=
  ((s.dropWhile goIsSpace).reverse.dropWhile goIsSpace).reverse

/-- First line of a string: strings.Split(s, "\n")[0]. -/
def firstLine (s : GoStr) : GoStr :=
  s.takeWhile (fun c => c ≠ '\n')

/-- Model of Go strings.Split with a one-character separator. -/
def splitOnChar (sep : Char) : GoStr → List GoStr
  | [] => [[]]
  | c :: rest =>
    let r := splitOnChar sep rest
    if c = sep then [] :: r
    else
      match r with
      | [] => [[c]]
      | h :: t => (c :: h) :: t

/-- Model of Go strings.Contains: sub occurs somewhere inside s. -/
def goContains : GoStr → GoStr → Bool
  | [], sub => decide (sub = [])
  | c :: rest, sub => sub.isPrefixOf (c :: rest) || goContains rest sub

/-- Non-empty all-digit string. -/
def digitsOnly (s : GoStr) : Bool := (decide (s ≠ [])) && s.all Char.isDigit

/-- Decimal value of a digit string. -/
def digitsToNat (s : GoStr) : Nat :=
  s.foldl (fun acc c => acc * 10 + (c.toNat - 48)) 0

/-!  Model of the external hashicorp/go-version library, restricted to the
numeric versions and the comparison operators this program feeds it. -/

/-- Constraint operators of hashicorp/go-version (`pess` is `~>`). -/
inductive VOp where
  | veq | vne | vgt | vlt | vge | vle | pess
  deriving DecidableEq, Repr

/-- Parse a version string: optional leading `v`, then dot-separated decimal
segments.  Models go-version `NewVersion` for numeric versions. -/
def NewVersion (s : GoStr) : Option (List Nat) :=
  let s := match s with | 'v' :: rest => rest | _ => s
  let parts := splitOnChar '.' s
  if parts.all digitsOnly then some (parts.map digitsToNat) else none

/-- Compare two versions segment by segment, padding the shorter one with
zeros (go-version `Compare`). -/
def cmpSegs : List Nat → List Nat → Ordering
  | [], b => if b.all (fun x => x = 0) then .eq else .lt
  | a :: as, [] => if a = 0 then cmpSegs as [] else .gt
  | a :: as, b :: bs =>
    if a < b then .lt else if b < a then .gt else cmpSegs as bs

/-- Upper bound used by the pessimistic operator `~>`. -/
def pessimisticUpper : List Nat → List Nat
  | [] => []
  | [a] => [a + 1]
  | [a, _] => [a + 1]
  | a :: rest => a :: pessimisticUpper rest

/-- Check a single constraint against a version (go-version `Check`). -/
def checkOne (c : VOp × List Nat) (v : List Nat) : Bool :=
  match c.1 with
  | .veq => cmpSegs v c.2 = .eq
  | .vne => cmpSegs v c.2 ≠ .eq
  | .vgt => cmpSegs v c.2 = .gt
  | .vlt => cmpSegs v c.2 = .lt
  | .vge => cmpSegs v c.2 ≠ .lt
  | .vle => cmpSegs v c.2 ≠ .gt
  | .pess => cmpSegs v c.2 ≠ .lt && cmpSegs v (pessimisticUpper c.2) = .lt

/-- Parse one comma-separated constraint item: optional operator, then a
version, with surrounding whitespace allowed. -/
def parseOneConstraint (s : GoStr) : Option (VOp × List Nat) :=
  let t := trimSpace s
  let p : VOp × GoStr :=
    if (gs ">=").isPrefixOf t then (VOp.vge, t.drop 2)
    else if (gs "<=").isPrefixOf t then (VOp.vle, t.drop 2)
    else if (gs "!=").isPrefixOf t then (VOp.vne, t.drop 2)
    else if (gs "~>").isPrefixOf t then (VOp.pess, t.drop 2)
    else if (gs ">").isPrefixOf t then (VOp.vgt, t.drop 1)
    else if (gs "<").isPrefixOf t then (VOp.vlt, t.drop 1)
    else if (gs "=").isPrefixOf t then (VOp.veq, t.drop 1)
    else (VOp.veq, t)
  match NewVersion (trimSpace p.2) with
  | some v => some (p.1, v)
  | none => none

/-- Parse a comma-separated constraint expression (go-version
`NewConstraint`). -/
def NewConstraint (s : GoStr) : Option (List (VOp × List Nat)) :=
  (splitOnChar ',' s).mapM parseOneConstraint

/-- Check a version against every constraint of the list. -/
def checkAll (cs : List (VOp × List Nat)) (v : List Nat) : Bool :=
  cs.all (fun c => checkOne c v)

/-- v1/config/flavors.go: the fixed descending preference list of
interpreter versions. -/
def ALLOWED_PYTHON_VERSIONS : List GoStr :=
  [gs "3.12", gs "3.11", gs "3.10", gs "3.9", gs "3.8", gs "3.7", gs "3.6"]

/-- v1/config/flavors.go `GetPythonVersion`: keep only the first line of both
inputs with surrounding whitespace stripped, parse the constraint, then
either validate the explicit candidate or walk the preference list.
`log.Fatal` inside the preference loop is unreachable because every constant
of the list parses; it is modelled as the candidate not matching. -/
def GetPythonVersion (requires candidate : GoStr) : Except GoStr GoStr :=
  let requires := trimSpace (firstLine requires)
  let candidate := trimSpace (firstLine candidate)
  match NewConstraint requires with
  | none => .error (gs "malformed constraint")
  | some cs =>
    if candidate ≠ [] then
      match NewVersion candidate with
      | none => .error (gs "GetPythonVersion: version is not valid")
      | some v =>
        if checkAll cs v then .ok candidate
        else .error (gs "GetPythonVersion: version does not satisfy the constraint")
    else
      match ALLOWED_PYTHON_VERSIONS.find?
          (fun t => ((NewVersion t).map (checkAll cs)).getD false) with
      | some t => .ok t
      | none => .error (gs "GetPythonVersion: no version satisfies the constraint")

/-! ## Manifest model (v1/config, structures of the decoded pyproject.toml) -/

/-- v1/config: a package index declaration. -/
structure Index where
  Url : GoStr
  Username : GoStr
  UsernameSecret : GoStr
  Password : GoStr
  PasswordSecret : GoStr
  Trust : Bool
  deriving DecidableEq, Repr

/-- v1/config: a file copy operation. -/
structure Copy where
  From : GoStr
  Source : GoStr
  Destination : GoStr
  deriving DecidableEq, Repr

/-- v1/config: a file add operation. -/
structure Add where
  Checksum : GoStr
  Source : GoStr
  Destination : GoStr
  deriving DecidableEq, Repr

/-- v1/config: an author entry. -/
structure Author where
  Name : GoStr
  Email : GoStr
  deriving DecidableEq, Repr

/-- v1/config: the poetry section; Dependencies maps package names to
version constraints (Go map modelled as an association list). -/
structure Poetry where
  Name : GoStr
  Dependencies : List (GoStr × GoStr)
  deriving DecidableEq, Repr

/-- First-match association-list lookup, modelling a Go map read. -/
def lookupAssoc {α : Type} (l : List (GoStr × α)) (key : GoStr) : Option α :=
  (l.find? (fun kv => decide (kv.1 = key))).map Prod.snd

/-- v1/config `Poetry.PythonRequires`: the version of the "python"
dependency, or the empty string. -/
def poetryPythonRequires (p : Poetry) : GoStr :=
  (lookupAssoc p.Dependencies (gs "python")).getD []

/-- v1/config: a build target section. -/
structure MicrobTarget where
  Flavor : GoStr
  Entrypoint : List GoStr
  Command : List GoStr
  PythonVersion : GoStr
  Requirements : GoStr
  Indices : List Index
  Extras : List GoStr
  Env : List (GoStr × GoStr)
  Labels : List (GoStr × GoStr)
  BuildDeps : List GoStr
  SystemDeps : List GoStr
  CopyFiles : List Copy
  CopyFilesBeforeBuild : List Copy
  AddFiles : List Add
  AddFilesBeforeBuild : List Add
  deriving DecidableEq, Repr

/-- v1/config: the microb tool section.  The Go map of targets is modelled
as an association list; its order stands for the runtime's map enumeration
order, which Go leaves unspecified. -/
structure Microb where
  Target : List (GoStr × MicrobTarget)
  deriving DecidableEq, Repr

/-- v1/config: the project section. -/
structure Project where
  Name : GoStr
  Authors : List Author
  Dependencies : List GoStr
  OptionalDependencies : List (GoStr × List GoStr)
  RequiresPython : GoStr
  deriving DecidableEq, Repr

/-- v1/config: the tool section. -/
structure Tool where
  Microb : Microb
  Poetry : Poetry
  deriving DecidableEq, Repr

/-- v1/config: the decoded pyproject.toml (decoding itself is the external
TOML library and out of scope; the resolver starts from this value). -/
structure PyProject where
  Project : Project
  Tool : Tool
  deriving DecidableEq, Repr

/-- v1/config: the resolved build configuration. -/
structure Config where
  Flavor : GoStr
  Name : GoStr
  Authors : List Author
  PythonVersion : GoStr
  Entrypoint : List GoStr
  Command : List GoStr
  Env : List (GoStr × GoStr)
  Labels : List (GoStr × GoStr)
  BuildDeps : List GoStr
  SystemDeps : List GoStr
  Indices : List Index
  Dependencies : List GoStr
  DependenciesUseSsh : Bool
  DependenciesUseGit : Bool
  Requirements : GoStr
  CopyFiles : List Copy
  CopyFilesBeforeBuild : List Copy
  AddFiles : List Add
  AddFilesBeforeBuild : List Add
  deriving DecidableEq, Repr

/-- v1/config: build options deduced from the build context. The two
external read callbacks are modelled by the value the pinned-version read
returns and by a function for the lock-file read. -/
structure Options where
  Target : GoStr
  ReadPythonVersion : GoStr
  ReadRequirements : GoStr → Except GoStr (List GoStr)

/-- v1/config/flavors.go `DefaultFlavor`. -/
def DefaultFlavor : GoStr := gs "debian"

/-- v1/config/flavors.go `Flavor`: validate a flavor name, defaulting the
empty string to debian; `none` models the `false` return. -/
def Flavor (flavor : GoStr) : Option GoStr :=
  if flavor = gs "debian" then some flavor
  else if flavor = gs "alpine" then some flavor
  else if flavor = [] then some DefaultFlavor
  else none

/-- v1/config `isUsingSsh`: some entry mentions git-over-ssh transport. -/
def isUsingSsh (requirements : List GoStr) : Bool :=
  requirements.any (fun line => goContains line (gs "git+ssh://"))

/-- v1/config `isUsingGit`: some entry mentions git transport. -/
def isUsingGit (requirements : List GoStr) : Bool :=
  requirements.any (fun line => goContains line (gs "git+"))

/-- v1/config `getBuildDeps`: start from the user build deps and append the
inferred packages; the source appends without checking for presence. -/
def getBuildDeps (indices : List Index) (buildDeps : List GoStr)
    (dependenciesUseSsh dependenciesUseGit : Bool) : List GoStr :=
  let deps := buildDeps
  let deps := if dependenciesUseSsh then deps ++ [gs "openssh-client"] else deps
  let deps := if dependenciesUseGit then deps ++ [gs "git"] else deps
  let needJq := indices.any (fun i => !i.UsernameSecret.isEmpty || !i.PasswordSecret.isEmpty)
  if needJq then deps ++ [gs "jq"] else deps

/-- utils `Unique` materialises a Go map keyed by the entries and then
iterates it.  The relation states exactly what the language guarantees
about the output: each distinct entry once, in an unspecified order. -/
def UniqueSpec (slice out : List GoStr) : Prop :=
  out.Nodup ∧ (∀ s ∈ slice, s ∈ out) ∧ (∀ s ∈ out, s ∈ slice)

instance (slice out : List GoStr) : Decidable (UniqueSpec slice out) := by
  unfold UniqueSpec; infer_instance

/-- v1/config `getPythonDeps`, deterministic part: manifest dependencies
followed by the dependencies of every requested extra, failing on an
unknown extra. -/
def collectExtras (optional : List (GoStr × List GoStr)) :
    List GoStr → Except GoStr (List GoStr)
  | [] => .ok []
  | e :: rest =>
    match lookupAssoc optional e with
    | none => .error (gs "extra not found in pyproject.toml")
    | some deps => (collectExtras optional rest).map (fun r => deps ++ r)

/-- v1/config `getPythonDeps` before de-duplication. -/
def collectPythonDeps (pyproject : PyProject) (extras : List GoStr) :
    Except GoStr (List GoStr) :=
  (collectExtras pyproject.Project.OptionalDependencies extras).map
    (fun extraDeps => pyproject.Project.Dependencies ++ extraDeps)

/-- v1/config `getPythonDeps`: collect, then `utils.Unique`.  The map
iteration order chosen by the runtime is passed in as `uniq`; a run is
faithful when `UniqueSpec` holds at the list it is applied to. -/
def getPythonDeps (pyproject : PyProject) (extras : List GoStr)
    (uniq : List GoStr → List GoStr) : Except GoStr (List GoStr) :=
  (collectPythonDeps pyproject extras).map uniq

/-- v1/config `defaultTarget`: the first target the runtime's map
enumeration yields, here the head of the association list. -/
def defaultTarget (m : Microb) : Option GoStr :=
  m.Target.head?.map Prod.fst

/-- v1/config `NewConfigFromBytes` after a target name has been fixed:
look the target up, validate the flavor, solve the interpreter version
(falling back to the pinned version read from the context), reject
requirements combined with extras, compute dependencies and transport
flags, and assemble the Config. -/
def resolveWithTarget (pyproject : PyProject) (options : Options)
    (uniq : List GoStr → List GoStr) (requiresPython target : GoStr) :
    Except GoStr Config :=
  match lookupAssoc pyproject.Tool.Microb.Target target with
  | none => .error (gs "NewConfigFromBytes: target not found in pyproject.toml")
  | some targetConfig =>
    match Flavor targetConfig.Flavor with
    | none => .error (gs "NewConfigFromBytes: target uses unknown flavor")
    | some flavor =>
      let pyVersionInput :=
        if targetConfig.PythonVersion = [] then options.ReadPythonVersion
        else targetConfig.PythonVersion
      match GetPythonVersion requiresPython pyVersionInput with
      | .error e => .error e
      | .ok pythonVersion =>
        if targetConfig.Requirements ≠ [] ∧ targetConfig.Extras ≠ [] then
          .error (gs "NewConfigFromBytes: using requirements is not allowed together with extras")
        else
          match getPythonDeps pyproject targetConfig.Extras uniq with
          | .error e => .error e
          | .ok dependencies =>
            match (if targetConfig.Requirements ≠ [] then
                     options.ReadRequirements targetConfig.Requirements
                   else .ok dependencies) with
            | .error e => .error e
            | .ok flagSource =>
              let dependenciesUseSsh := isUsingSsh flagSource
              let dependenciesUseGit := isUsingGit flagSource
              let buildDeps := getBuildDeps targetConfig.Indices
                targetConfig.BuildDeps dependenciesUseSsh dependenciesUseGit
              .ok {
                Flavor := flavor
                Name := pyproject.Project.Name
                Authors := pyproject.Project.Authors
                PythonVersion := pythonVersion
                Entrypoint := targetConfig.Entrypoint
                Command := targetConfig.Command
                Env := targetConfig.Env
                Labels := targetConfig.Labels
                BuildDeps := buildDeps
                SystemDeps := targetConfig.SystemDeps
                Indices := targetConfig.Indices
                Dependencies := dependencies
                DependenciesUseSsh := dependenciesUseSsh
                DependenciesUseGit := dependenciesUseGit
                Requirements := targetConfig.Requirements
                CopyFiles := targetConfig.CopyFiles
                CopyFilesBeforeBuild := targetConfig.CopyFilesBeforeBuild
                AddFiles := targetConfig.AddFiles
                AddFilesBeforeBuild := targetConfig.AddFilesBeforeBuild }

/-- The version-constraint source of v1/config `NewConfigFromBytes`: the
poetry python requirement when a poetry section is present, else the
project's requires-python field. -/
def requiresPythonOf (pyproject : PyProject) : GoStr :=
  if pyproject.Tool.Poetry.Name ≠ [] then poetryPythonRequires pyproject.Tool.Poetry
  else pyproject.Project.RequiresPython

/-- The target name v1/config `NewConfigFromBytes` resolves: the explicit
option when given, else the first enumerated target if any. -/
def selectedTarget (pyproject : PyProject) (options : Options) : Option GoStr :=
  if options.Target = [] then defaultTarget pyproject.Tool.Microb
  else some options.Target

/-- v1/config `NewConfigFromBytes` (the version taking Options): pick the
constraint source (poetry overrides the project section), select the
target — explicit name, else the first enumerated target, else the minimal
project-only configuration — and resolve. -/
def NewConfigFromBytes (pyproject : PyProject) (options : Options)
    (uniq : List GoStr → List GoStr) : Except GoStr Config :=
  let requiresPython := requiresPythonOf pyproject
  match selectedTarget pyproject options with
  | some t => resolveWithTarget pyproject options uniq requiresPython t
  | none =>
      match GetPythonVersion requiresPython options.ReadPythonVersion with
      | .error e => .error e
      | .ok pythonVersion =>
        .ok {
          Flavor := DefaultFlavor
          Name := pyproject.Project.Name
          Authors := pyproject.Project.Authors
          PythonVersion := pythonVersion
          Entrypoint := []
          Command := []
          Env := []
          Labels := []
          BuildDeps := []
          SystemDeps := []
          Indices := []
          Dependencies := pyproject.Project.Dependencies
          DependenciesUseSsh := isUsingSsh pyproject.Project.Dependencies
          DependenciesUseGit := isUsingGit pyproject.Project.Dependencies
          Requirements := []
          CopyFiles := []
          CopyFilesBeforeBuild := []
          AddFiles := []
          AddFilesBeforeBuild := [] }

/-! ## Script compiler (v1/dockerfile) -/

/-- strings.Join with a single space. -/
def joinSpace (l : List GoStr) : GoStr :=
  match l with
  | [] => []
  | h :: t => h ++ (t.map (fun x => ' ' :: x)).flatten

/-- Split a string at the first occurrence of a substring; `none` when the
substring does not occur. -/
def breakOnSub : GoStr → GoStr → Option (GoStr × GoStr)
  | [], sub => if sub = [] then some ([], []) else none
  | c :: rest, sub =>
    if sub.isPrefixOf (c :: rest) then some ([], (c :: rest).drop sub.length)
    else (breakOnSub rest sub).map (fun pr => (c :: pr.1, pr.2))

/-- Model of Go strings.Replace(s, old, new, 1): replace the first
occurrence of `pat`. -/
def goReplace1 : GoStr → GoStr → GoStr → GoStr
  | [], pat, repl => if pat = [] then repl else []
  | c :: rest, pat, repl =>
    if pat.isPrefixOf (c :: rest) then repl ++ (c :: rest).drop pat.length
    else c :: goReplace1 rest pat repl

/-- Model of a parsed net/url URL, restricted to the parts this program
reads or writes. -/
structure GoURL where
  scheme : GoStr
  username : Option GoStr
  password : Option GoStr
  host : GoStr
  path : GoStr
  deriving DecidableEq, Repr

/-- Characters the userinfo percent-encoder passes through (RFC 3986
unreserved characters; the external net/url encoder also passes some
sub-delimiters, which none of the statements here depend on). -/
def isUnreservedChar (c : Char) : Bool :=
  c.isAlpha || c.isDigit || c = '-' || c = '.' || c = '_' || c = '~'

/-- One hexadecimal digit, upper case. -/
def hexDigit (n : Nat) : Char :=
  if n < 10 then Char.ofNat (48 + n) else Char.ofNat (55 + n)

/-- Percent-encode the userinfo components, modelling net/url. -/
def encodeUserinfo (s : GoStr) : GoStr :=
  s.flatMap (fun c =>
    if isUnreservedChar c then [c]
    else ['%', hexDigit (c.toNat / 16 % 16), hexDigit (c.toNat % 16)])

/-- Model of net/url `Parse` for scheme://[userinfo@]host[/path] inputs. -/
def urlParse (s : GoStr) : GoURL :=
  match breakOnSub s (gs "://") with
  | none => { scheme := [], username := none, password := none, host := [], path := s }
  | some (scheme, rest) =>
    let authority := rest.takeWhile (fun c => c ≠ '/')
    let path := rest.drop authority.length
    if '@' ∈ authority then
      let hostRev := authority.reverse.takeWhile (fun c => c ≠ '@')
      let host := hostRev.reverse
      let userinfo := authority.take (authority.length - host.length - 1)
      match breakOnSub userinfo (gs ":") with
      | none => { scheme := scheme, username := some userinfo, password := none,
                  host := host, path := path }
      | some (u, p) => { scheme := scheme, username := some u, password := some p,
                         host := host, path := path }
    else
      { scheme := scheme, username := none, password := none, host := authority, path := path }

/-- Model of net/url `URL.String`: reassemble the URL, percent-encoding the
userinfo. -/
def urlString (u : GoURL) : GoStr :=
  u.scheme ++ gs "://" ++
    (match u.username with
     | none => []
     | some name =>
       encodeUserinfo name ++
         (match u.password with
          | none => []
          | some p => ':' :: encodeUserinfo p) ++ ['@']) ++
    u.host ++ u.path

/-- The shell expression reading and URI-escaping a build secret, as
rendered by v1/dockerfile/build_stage.go `indices`. -/
def secretExpr (secretName : GoStr) : GoStr :=
  gs "$(echo -n $(cat /run/secrets/" ++ secretName ++ gs ") | jq -sRr @uri)"

/-- v1/dockerfile/build_stage.go `indices`, body of the loop for one index
declaration: substitute placeholder credentials for secret-backed ones,
build the URL, then splice the secret-reading shell expressions over the
placeholders. -/
def renderIndex (index : Index) : GoStr :=
  let indexUrl := urlParse index.Url
  let replaceUser := if index.UsernameSecret ≠ [] then secretExpr index.UsernameSecret else []
  let username := if index.UsernameSecret ≠ [] then gs "REPLACE_USER" else index.Username
  let replacePassword := if index.PasswordSecret ≠ [] then secretExpr index.PasswordSecret else []
  let password := if index.PasswordSecret ≠ [] then gs "REPLACE_PASSWORD" else index.Password
  let indexUrl :=
    if trimSpace username ≠ [] ∧ trimSpace password = [] then
      { indexUrl with username := some username, password := none }
    else indexUrl
  let indexUrl :=
    if trimSpace username ≠ [] ∧ trimSpace password ≠ [] then
      { indexUrl with username := some username, password := some password }
    else indexUrl
  let indexUrlString := urlString indexUrl
  let indexUrlString :=
    if replaceUser ≠ [] then goReplace1 indexUrlString (gs "REPLACE_USER") replaceUser
    else indexUrlString
  let indexUrlString :=
    if replacePassword ≠ [] then goReplace1 indexUrlString (gs "REPLACE_PASSWORD") replacePassword
    else indexUrlString
  gs " --extra-index-url \"" ++ indexUrlString ++ gs "\"" ++
    (if index.Trust then gs " --trusted-host \"" ++ indexUrl.host ++ gs "\"" else [])

/-- v1/dockerfile/build_stage.go `indices`: the pip option string for all
declared indices. -/
def indices (c : Config) : GoStr :=
  gs "--retries 2" ++ (c.Indices.map renderIndex).flatten

/-- v1/dockerfile/translate.go: cache mount for apt. -/
def aptCacheMount : GoStr :=
  gs " --mount=type=cache,target=/var/cache/apt,sharing=locked --mount=type=cache,target=/var/lib/apt,sharing=locked"

/-- v1/dockerfile/translate.go: cache mount for apk. -/
def apkCacheMount : GoStr := gs " --mount=type=cache,target=/var/cache/apk,sharing=locked"

/-- v1/dockerfile/build_stage.go `fromBuilder`: the preparation-stage base
image, tagged with the interpreter version, plus `-alpine` for the alpine
flavor (and nothing for debian). -/
def fromBuilder (c : Config) : GoStr :=
  let tag := c.PythonVersion ++ (if c.Flavor = gs "alpine" then gs "-alpine" else [])
  gs "FROM docker.io/python:" ++ tag ++ gs " AS builder\n"

/-- v1/dockerfile/build_stage.go `updateBuildDeps` helper: the source's
append-only-when-absent pattern. -/
def appendIfMissing (deps : List GoStr) (pkg : GoStr) : List GoStr :=
  if deps = [] then [pkg]
  else if pkg ∈ deps then deps else deps ++ [pkg]

/-- v1/dockerfile/build_stage.go `updateBuildDeps`: extend the resolved
build deps with jq, git and openssh-client as required, each only when not
already present. -/
def updateBuildDeps (c : Config) (requirementsUseSsh : Bool) : List GoStr :=
  let needJq := c.Indices.any (fun i => !i.UsernameSecret.isEmpty || !i.PasswordSecret.isEmpty)
  let deps := c.BuildDeps
  let deps := if needJq then appendIfMissing deps (gs "jq") else deps
  let needGit := c.Dependencies.any (fun d => goContains d (gs "git+"))
  let needOpenssh := c.Dependencies.any (fun d => goContains d (gs "git+ssh"))
  let deps := if needGit || requirementsUseSsh then appendIfMissing deps (gs "git") else deps
  let deps := if needOpenssh || requirementsUseSsh then appendIfMissing deps (gs "openssh-client") else deps
  deps

/-- v1/dockerfile/build_stage.go `installBuildDepsApt`. -/
def installBuildDepsApt (c : Config) (requirementsUseSsh : Bool) : GoStr :=
  let deps := updateBuildDeps c requirementsUseSsh
  if deps = [] then []
  else gs "RUN " ++ aptCacheMount ++ gs " " ++
    gs "apt-get update && apt-get install -y --no-install-recommends " ++ joinSpace deps

/-- v1/dockerfile/build_stage.go `installBuildDepsApk`. -/
def installBuildDepsApk (c : Config) (requirementsUseSsh : Bool) : GoStr :=
  let deps := updateBuildDeps c requirementsUseSsh
  if deps = [] then []
  else gs "RUN " ++ apkCacheMount ++ gs " " ++ gs "apk add " ++ joinSpace deps

/-- v1/dockerfile/build_stage.go `buildStage`, flavor dispatch (lines
15–21): select the flavor-appropriate package-manager instruction;
`none` models the `log.Fatalf` abort on an unknown flavor. -/
def buildStagePackageInstall (c : Config) (requirementsUseSsh : Bool) : Option GoStr :=
  if c.Flavor = gs "debian" then some (installBuildDepsApt c requirementsUseSsh)
  else if c.Flavor = gs "alpine" then some (installBuildDepsApk c requirementsUseSsh)
  else none

/-- One COPY instruction of v1/dockerfile (shared shape of `copyFiles` and
`copyBeforeBuild` entries). -/
def renderCopy (f : Copy) : GoStr :=
  if f.From ≠ [] then
    gs "COPY --from=" ++ f.From ++ gs " " ++ f.Source ++ gs " " ++ f.Destination ++ gs "\n"
  else gs "COPY " ++ f.Source ++ gs " " ++ f.Destination ++ gs "\n"

/-- v1/dockerfile/build_stage.go `copyBeforeBuild`, exactly as written:
gated on `CopyFilesBeforeBuild` being non-empty but iterating `CopyFiles`. -/
def copyBeforeBuild (c : Config) : GoStr :=
  if c.CopyFilesBeforeBuild ≠ [] then gs "\n" ++ (c.CopyFiles.map renderCopy).flatten
  else []

/-- v1/dockerfile/run_stage.go `fromFinalStage`: the runtime-stage base
image, `-alpine` for alpine, `-slim` for debian. -/
def fromFinalStage (c : Config) : GoStr :=
  let image := gs "python:" ++ c.PythonVersion ++
    (if c.Flavor = gs "alpine" then gs "-alpine"
     else if c.Flavor = gs "debian" then gs "-slim" else [])
  gs "\n" ++ gs "FROM " ++ image ++ gs "\n"

/-- v1/dockerfile/run_stage.go `installSystemDepsWithApt`. -/
def installSystemDepsWithApt (c : Config) : GoStr :=
  gs "\n" ++
    (if c.SystemDeps ≠ [] then
      gs "RUN apt-get update && apt-get install -y --no-install-recommends " ++
        (c.SystemDeps.map (fun dep => gs " " ++ dep ++ gs " ")).flatten ++
        gs " && rm -rf /var/lib/apt/lists/*\n"
    else [])

/-- v1/dockerfile/run_stage.go `installSystemDepsWithApk`. -/
def installSystemDepsWithApk (c : Config) : GoStr :=
  gs "\n" ++
    (if c.SystemDeps ≠ [] then
      gs "RUN apk add --no-cache " ++
        (c.SystemDeps.map (fun dep => gs " " ++ dep ++ gs " ")).flatten ++ gs "\n"
    else [])

/-- v1/dockerfile/run_stage.go `runStage`, flavor dispatch (lines 16–22);
`none` models the `log.Fatalf` abort on an unknown flavor. -/
def runStageSystemInstall (c : Config) : Option GoStr :=
  if c.Flavor = gs "debian" then some (installSystemDepsWithApt c)
  else if c.Flavor = gs "alpine" then some (installSystemDepsWithApk c)
  else none

/-! ## Build orchestrator (v1/llb/build.go) -/

/-- Model of an OCI platform (external containerd type). -/
structure Platform where
  os : GoStr
  arch : GoStr
  variant : GoStr
  deriving DecidableEq, Repr

/-- Architecture aliases folded by containerd `platforms.Normalize`. -/
def normalizeArch (a : GoStr) : GoStr :=
  if a = gs "x86_64" ∨ a = gs "x86-64" ∨ a = gs "amd64" then gs "amd64"
  else if a = gs "aarch64" ∨ a = gs "arm64" then gs "arm64"
  else a

/-- Model of containerd `platforms.Parse` followed by `platforms.Normalize`
for the os/arch[/variant] specifiers this frontend receives. -/
def parsePlatform (s : GoStr) : Except GoStr Platform :=
  match splitOnChar '/' s with
  | [os, arch] => .ok ⟨os, normalizeArch arch, []⟩
  | [os, arch, variant] =>
    let arch := normalizeArch arch
    if arch = gs "arm64" ∧ variant = gs "v8" then .ok ⟨os, arch, []⟩
    else .ok ⟨os, arch, variant⟩
  | _ => .error (gs "failed to parse target platform")

/-- v1/llb/build.go `parsePlatforms`: split the comma-separated directive
and parse each entry, failing on the first invalid one. -/
def parsePlatforms (v : GoStr) : Except GoStr (List Platform) :=
  (splitOnChar ',' v).mapM parsePlatform

/-- containerd `platforms.Format`: the platform identifier string used to
namespace per-platform results. -/
def formatPlatform (p : Platform) : GoStr :=
  p.os ++ gs "/" ++ p.arch ++ (if p.variant ≠ [] then gs "/" ++ p.variant else [])

/-- One platform-namespaced entry of the aggregate build result
(`AddToClientResult` with PrefixPlatform set). -/
structure ResultEntry where
  id : GoStr
  payload : GoStr
  deriving DecidableEq, Repr

/-- The aggregate multi-platform result assembled by `Build`:
the namespaced artifacts, the platform slot array
(`exportPlatforms.Platforms`, indexed by input platform order), and the
multi-platform flag. -/
structure AggregateResult where
  entries : List ResultEntry
  exportPlatforms : List (Option GoStr)
  multi : Bool
  deriving DecidableEq, Repr

/-- The ExportPlatform.ID recorded by task `i`: the formatted target
platform. -/
def taskId (platforms : List Platform) (i : Nat) : GoStr :=
  match platforms.get? i with
  | some p => formatPlatform p
  | none => []

/-- Model of v1/llb/build.go `Build`, lines 112–159: one task per target
platform under a single errgroup.  `outcomes` is what the external engine
returns for each platform's conversion; `order` is the completion order the
scheduler happens to realise.  errgroup.Wait yields the error of the first
task to fail in completion order, in which case `Build` returns only that
error (no aggregate result); otherwise every task has stored its artifacts
under its platform ID and written its own slot of the platform array. -/
def runPlatformTasks (platforms : List Platform)
    (outcomes : List (Except GoStr GoStr)) (order : List Nat) :
    Except GoStr AggregateResult :=
  match order.findSome? (fun i =>
      match outcomes.get? i with
      | some (.error e) => some e
      | _ => none) with
  | some e => .error e
  | none =>
    .ok {
      entries := order.filterMap (fun i =>
        match outcomes.get? i with
        | some (.ok payload) => some ⟨taskId platforms i, payload⟩
        | _ => none)
      exportPlatforms := (List.range platforms.length).map (fun i =>
        match outcomes.get? i with
        | some (.ok _) => some (taskId platforms i)
        | _ => none)
      multi := platforms.length > 1 }

/-! ## Supporting lemmas -/

theorem goContains_infix_iff (s sub : GoStr) : goContains s sub = true ↔ sub <:+: s := by
  induction s with
  | nil => simp [goContains, List.infix_nil]
  | cons c rest ih =>
    simp only [goContains, List.infix_cons_iff, List.isPrefixOf_iff_prefix, ih,
      Bool.or_eq_true]

theorem infix_goReplace1 {pat s : GoStr} (repl : GoStr) (h : pat <:+: s) :
    repl <:+: goReplace1 s pat repl := by
  induction s with
  | nil =>
    have hp : pat = [] := List.infix_nil.mp h
    subst hp
    simp [goReplace1]
  | cons c rest ih =>
    by_cases hp : pat.isPrefixOf (c :: rest)
    · rw [goReplace1, if_pos hp]
      exact (List.prefix_append repl _).isInfix
    · rw [goReplace1, if_neg hp]
      have hr : pat <:+: rest := by
        rcases List.infix_cons_iff.mp h with hpre | hinf
        · exact absurd (List.isPrefixOf_iff_prefix.mpr hpre) hp
        · exact hinf
      exact (ih hr).trans ((List.suffix_cons c _).isInfix)

theorem goReplace1_keeps_appended {pat : GoStr} (repl : GoStr) (hne : pat ≠ []) :
    ∀ (s b : GoStr), pat <:+: s → ∃ t, goReplace1 (s ++ b) pat repl = t ++ b := by
  intro s
  induction s with
  | nil => intro b h; exact absurd (List.infix_nil.mp h) hne
  | cons c rest ih =>
    intro b h
    rw [List.cons_append]
    by_cases hp : pat.isPrefixOf (c :: (rest ++ b))
    · refine ⟨repl ++ (c :: rest).drop pat.length, ?_⟩
      have hlen : pat.length ≤ (c :: rest).length := h.length_le
      rw [goReplace1, if_pos hp, ← List.cons_append,
        List.drop_append_of_le_length hlen, ← List.append_assoc]
    · rcases List.infix_cons_iff.mp h with hpre | hinf
      · exact absurd (List.isPrefixOf_iff_prefix.mpr (hpre.trans (List.prefix_append _ b))) hp
      · rcases ih b hinf with ⟨t, ht⟩
        refine ⟨c :: t, ?_⟩
        rw [goReplace1, if_neg hp, ht, List.cons_append]

/-- After replacing the password placeholder, the replacement text occurs in
the result. -/
theorem replace_pass_keeps (x y rep : GoStr) :
    rep <:+: goReplace1 (x ++ (gs "REPLACE_PASSWORD" ++ y)) (gs "REPLACE_PASSWORD") rep :=
  infix_goReplace1 rep ⟨x, y, by simp [List.append_assoc]⟩

/-- Replacing the username placeholder first (the occurrence lies left of
the password placeholder) keeps the password placeholder intact, so the
password replacement text occurs in the final result. -/
theorem replace_both_keeps (x mid y ruExpr rpExpr : GoStr)
    (hx : gs "REPLACE_USER" <:+: x) :
    rpExpr <:+: goReplace1
      (goReplace1 (x ++ (mid ++ (gs "REPLACE_PASSWORD" ++ y))) (gs "REPLACE_USER") ruExpr)
      (gs "REPLACE_PASSWORD") rpExpr := by
  obtain ⟨t, ht⟩ := goReplace1_keeps_appended ruExpr (by decide) x
    (mid ++ (gs "REPLACE_PASSWORD" ++ y)) hx
  rw [ht]
  exact infix_goReplace1 _ ⟨t ++ mid, y, by simp [List.append_assoc]⟩

/-! ## C2: secret-backed credentials -/

/-- C2.  For every package index declaration with `password_secret` set, the
rendered pip option string does not depend on the plaintext `password` field
at all (formalising "the script text never contains the plaintext password"
and "the secret reference takes precedence"); likewise a set
`username_secret` makes the output independent of the plaintext `username`;
and whenever the index renders a credential at all (its effective username
is non-blank), the rendered string contains the shell expression that reads
and URI-escapes the password secret. -/
theorem secret_credentials_take_precedence (index : Index)
    (hps : index.PasswordSecret ≠ []) :
    (∀ p, renderIndex { index with Password := p } = renderIndex index) ∧
    (∀ u, index.UsernameSecret ≠ [] →
      renderIndex { index with Username := u } = renderIndex index) ∧
    (trimSpace (if index.UsernameSecret ≠ [] then gs "REPLACE_USER" else index.Username) ≠ [] →
      secretExpr index.PasswordSecret <:+: renderIndex index) := by
  refine ⟨?_, ?_, ?_⟩
  · intro p
    simp [renderIndex, hps]
  · intro u hus
    simp [renderIndex, hps, hus]
  · intro hu
    have hrp : trimSpace (gs "REPLACE_PASSWORD") ≠ ([] : GoStr) := by decide
    have hencp : encodeUserinfo (gs "REPLACE_PASSWORD") = gs "REPLACE_PASSWORD" := by decide
    have hsec : ¬ secretExpr index.PasswordSecret = [] := by simp [secretExpr, gs]
    by_cases hus : index.UsernameSecret ≠ []
    · have hru : trimSpace (gs "REPLACE_USER") ≠ ([] : GoStr) := by decide
      have hencu : encodeUserinfo (gs "REPLACE_USER") = gs "REPLACE_USER" := by decide
      have husec : ¬ secretExpr index.UsernameSecret = [] := by simp [secretExpr, gs]
      simp only [renderIndex, hps, hus, ne_eq, not_false_iff, if_pos, if_true, hru, hrp,
        not_true_eq_false, if_neg, and_true, and_false, if_false, urlString, hencu, hencp,
        husec, hsec]
      have hmain := replace_both_keeps
        ((urlParse index.Url).scheme ++ gs "://" ++ gs "REPLACE_USER") [':']
        (['@'] ++ ((urlParse index.Url).host ++ (urlParse index.Url).path))
        (secretExpr index.UsernameSecret) (secretExpr index.PasswordSecret)
        ⟨(urlParse index.Url).scheme ++ gs "://", [], by simp⟩
      have hmain2 : secretExpr index.PasswordSecret <:+:
          goReplace1
            (goReplace1
              ((urlParse index.Url).scheme ++
                (gs "://" ++
                  (gs "REPLACE_USER" ++
                    ':' :: (gs "REPLACE_PASSWORD" ++
                      '@' :: ((urlParse index.Url).host ++ (urlParse index.Url).path)))))
              (gs "REPLACE_USER") (secretExpr index.UsernameSecret))
            (gs "REPLACE_PASSWORD") (secretExpr index.PasswordSecret) := by
        simpa [List.append_assoc] using hmain
      exact hmain2.trans
        ⟨gs " --extra-index-url \"",
         gs "\"" ++ (if index.Trust = true then
           gs " --trusted-host \"" ++ (urlParse index.Url).host ++ gs "\"" else []),
         by simp [List.append_assoc]⟩
    · simp only [ne_eq, not_not] at hus
      rw [if_neg (by simp [hus])] at hu
      simp only [renderIndex, hps, hus, ne_eq, not_false_iff, if_pos, hu, hrp,
        not_true_eq_false, if_neg, and_true, and_false, if_false, urlString, hencp, hsec]
      have hmain := replace_pass_keeps
        ((urlParse index.Url).scheme ++ gs "://" ++ encodeUserinfo index.Username ++ [':'])
        (['@'] ++ ((urlParse index.Url).host ++ (urlParse index.Url).path))
        (secretExpr index.PasswordSecret)
      have hmain2 : secretExpr index.PasswordSecret <:+:
          goReplace1
            ((urlParse index.Url).scheme ++
              (gs "://" ++
                (encodeUserinfo index.Username ++
                  ':' :: (gs "REPLACE_PASSWORD" ++
                    '@' :: ((urlParse index.Url).host ++ (urlParse index.Url).path)))))
            (gs "REPLACE_PASSWORD") (secretExpr index.PasswordSecret) := by
        simpa [List.append_assoc] using hmain
      exact hmain2.trans
        ⟨gs " --extra-index-url \"",
         gs "\"" ++ (if index.Trust = true then
           gs " --trusted-host \"" ++ (urlParse index.Url).host ++ gs "\"" else []),
         by simp [List.append_assoc]⟩

/-- Concrete index declaration used to witness C2. -/
def idxC2 : Index where
  Url := gs "https://pypi.example.com/simple"
  Username := gs "bob"
  UsernameSecret := []
  Password := gs "hunter2"
  PasswordSecret := gs "PYPI_PW"
  Trust := false

/-- Witness for C2 at a concrete index declaration with both a plaintext
password and a password secret. -/
theorem secret_credentials_take_precedence_witness :
    renderIndex { idxC2 with Password := gs "other" } = renderIndex idxC2 ∧
    secretExpr (gs "PYPI_PW") <:+: renderIndex idxC2 := by
  have h := secret_credentials_take_precedence idxC2 (by decide)
  exact ⟨h.1 (gs "other"), h.2.2 (by decide)⟩

/-! ## C5: the before-build copy defect -/

/-- An all-empty configuration, used as a base for concrete test inputs. -/
def emptyConfig : Config :=
  ⟨gs "debian", [], [], gs "3.11", [], [], [], [], [], [], [], [], false, false,
    [], [], [], [], []⟩

/-- Configuration with one before-build copy entry and no final-image copy
entries. -/
def cfgC5 : Config :=
  { emptyConfig with CopyFilesBeforeBuild := [⟨[], gs "cfg.json", gs "/cfg.json"⟩] }

/-- Configuration with one final-image copy entry and one before-build copy
entry, showing which list the loop actually walks. -/
def cfgC5b : Config :=
  { emptyConfig with
      CopyFilesBeforeBuild := [⟨[], gs "before.txt", gs "/before.txt"⟩]
      CopyFiles := [⟨[], gs "after.txt", gs "/after.txt"⟩] }

/-- C5.  `copyBeforeBuild` is gated on `copy_files_before_build` being
non-empty but iterates `copy_files`: with one before-build entry and no
final-image entries it emits no COPY instruction at all, and with one entry
in each list it emits the final-image entry, not the before-build one. -/
theorem copyBeforeBuild_iterates_final_copy_list :
    cfgC5.CopyFilesBeforeBuild.length = 1 ∧
    copyBeforeBuild cfgC5 = gs "\n" ∧
    goContains (copyBeforeBuild cfgC5) (gs "COPY") = false ∧
    copyBeforeBuild cfgC5b = gs "\n" ++ gs "COPY after.txt /after.txt\n" ∧
    goContains (copyBeforeBuild cfgC5b) (gs "before.txt") = false := by
  decide

/-! ## C6: flavor selection -/

/-- Concrete debian configuration for the C6 counterexample. -/
def cfgC6d : Config :=
  { emptyConfig with BuildDeps := [gs "curl"], SystemDeps := [gs "tini"] }

/-- C6 counterexample: for a debian-flavored configuration the preparation
stage's base image is `python:3.11` — it is not slim-tagged, so debian does
not select slim-tagged base images in both stages. -/
theorem debian_builder_image_not_slim :
    cfgC6d.Flavor = gs "debian" ∧
    fromBuilder cfgC6d = gs "FROM docker.io/python:3.11 AS builder\n" ∧
    goContains (fromBuilder cfgC6d) (gs "slim") = false ∧
    fromFinalStage cfgC6d = gs "\nFROM python:3.11-slim\n" := by
  decide

/-- C6 (amended).  Flavor alpine selects the alpine-tagged base image and
the apk package manager in both stages; flavor debian selects apt-get in
both stages and the slim-tagged base image in the runtime stage, while the
preparation stage uses the default (non-slim) python image; an omitted
flavor validates to debian. -/
theorem flavor_selects_base_images_and_package_manager (c : Config) (rs : Bool) :
    (c.Flavor = gs "alpine" →
      fromBuilder c = gs "FROM docker.io/python:" ++ (c.PythonVersion ++ gs "-alpine") ++
        gs " AS builder\n" ∧
      fromFinalStage c = gs "\n" ++ gs "FROM " ++
        (gs "python:" ++ c.PythonVersion ++ gs "-alpine") ++ gs "\n" ∧
      buildStagePackageInstall c rs = some (installBuildDepsApk c rs) ∧
      runStageSystemInstall c = some (installSystemDepsWithApk c) ∧
      (c.SystemDeps ≠ [] → goContains (installSystemDepsWithApk c) (gs "apk add") = true) ∧
      (updateBuildDeps c rs ≠ [] →
        goContains (installBuildDepsApk c rs) (gs "apk add") = true)) ∧
    (c.Flavor = gs "debian" →
      fromBuilder c = gs "FROM docker.io/python:" ++ c.PythonVersion ++ gs " AS builder\n" ∧
      fromFinalStage c = gs "\n" ++ gs "FROM " ++
        (gs "python:" ++ c.PythonVersion ++ gs "-slim") ++ gs "\n" ∧
      buildStagePackageInstall c rs = some (installBuildDepsApt c rs) ∧
      runStageSystemInstall c = some (installSystemDepsWithApt c) ∧
      (c.SystemDeps ≠ [] →
        goContains (installSystemDepsWithApt c) (gs "apt-get update") = true) ∧
      (updateBuildDeps c rs ≠ [] →
        goContains (installBuildDepsApt c rs) (gs "apt-get update") = true)) ∧
    Flavor [] = some (gs "debian") := by
  refine ⟨?_, ?_, by decide⟩
  · intro h
    refine ⟨?_, ?_, ?_, ?_, ?_, ?_⟩
    · simp only [fromBuilder, h]
      simp
    · simp only [fromFinalStage, h]
      simp
    · simp only [buildStagePackageInstall, h]
      rw [if_neg (by decide)]
      simp
    · simp only [runStageSystemInstall, h]
      rw [if_neg (by decide)]
      simp
    · intro hs
      rw [goContains_infix_iff]
      have h1 : gs "apk add" <:+: gs "RUN apk add --no-cache " := by decide
      refine h1.trans ?_
      rw [installSystemDepsWithApk, if_pos hs]
      exact ⟨gs "\n",
        (c.SystemDeps.map (fun dep => gs " " ++ dep ++ gs " ")).flatten ++ gs "\n",
        by simp [List.append_assoc]⟩
    · intro hd
      rw [goContains_infix_iff]
      have h1 : gs "apk add" <:+: gs "apk add " := by decide
      refine h1.trans ?_
      rw [installBuildDepsApk, if_neg hd]
      exact ⟨gs "RUN " ++ apkCacheMount ++ gs " ", joinSpace (updateBuildDeps c rs),
        by simp [List.append_assoc]⟩
  · intro h
    refine ⟨?_, ?_, ?_, ?_, ?_, ?_⟩
    · simp only [fromBuilder, h]
      rw [if_neg (by decide), List.append_nil]
    · simp only [fromFinalStage, h]
      rw [if_neg (by decide)]
      simp
    · simp only [buildStagePackageInstall, h]
      simp
    · simp only [runStageSystemInstall, h]
      simp
    · intro hs
      rw [goContains_infix_iff]
      have h1 : gs "apt-get update" <:+:
        gs "RUN apt-get update && apt-get install -y --no-install-recommends " := by decide
      refine h1.trans ?_
      rw [installSystemDepsWithApt, if_pos hs]
      exact ⟨gs "\n",
        (c.SystemDeps.map (fun dep => gs " " ++ dep ++ gs " ")).flatten ++
          gs " && rm -rf /var/lib/apt/lists/*\n",
        by simp [List.append_assoc]⟩
    · intro hd
      rw [goContains_infix_iff]
      have h1 : gs "apt-get update" <:+:
        gs "apt-get update && apt-get install -y --no-install-recommends " := by decide
      refine h1.trans ?_
      rw [installBuildDepsApt, if_neg hd]
      exact ⟨gs "RUN " ++ aptCacheMount ++ gs " ", joinSpace (updateBuildDeps c rs),
        by simp [List.append_assoc]⟩

/-- Concrete alpine configuration for the C6 witness. -/
def cfgC6a : Config :=
  { emptyConfig with Flavor := gs "alpine", SystemDeps := [gs "tini"] }

/-- Witness for the amended C6 at concrete alpine and debian
configurations. -/
theorem flavor_selects_base_images_witness :
    fromBuilder cfgC6a = gs "FROM docker.io/python:3.11-alpine AS builder\n" ∧
    runStageSystemInstall cfgC6a = some (installSystemDepsWithApk cfgC6a) ∧
    goContains (installSystemDepsWithApk cfgC6a) (gs "apk add") = true ∧
    runStageSystemInstall cfgC6d = some (installSystemDepsWithApt cfgC6d) ∧
    goContains (installSystemDepsWithApt cfgC6d) (gs "apt-get update") = true := by
  have ha := flavor_selects_base_images_and_package_manager cfgC6a false
  have hd := flavor_selects_base_images_and_package_manager cfgC6d false
  obtain ⟨a1, a2, a3, a4, a5, a6⟩ := ha.1 (by decide)
  obtain ⟨d1, d2, d3, d4, d5, d6⟩ := hd.2.1 (by decide)
  exact ⟨by rw [a1]; decide, a4, a5 (by decide), d4, d5 (by decide)⟩

/-! ## Shared concrete manifests -/

/-- A target with every field empty. -/
def emptyTarget : MicrobTarget :=
  ⟨[], [], [], [], [], [], [], [], [], [], [], [], [], [], []⟩

/-- Build options selecting the target named "default", with an empty
pinned-version read and a lock-file read returning no lines. -/
def optsDefaultTarget : Options :=
  ⟨gs "default", [], fun _ => Except.ok []⟩

/-! ## C3: requirements together with extras -/

/-- C3.  Whenever the selected target sets `requirements` and a non-empty
`extras` list, `NewConfigFromBytes` returns an error — no Config is
produced (the specific error is the mutual-exclusion validation error
unless an earlier validation step already failed). -/
theorem requirements_with_extras_always_fails (p : PyProject) (o : Options)
    (uniq : List GoStr → List GoStr) (t : GoStr) (tc : MicrobTarget)
    (hsel : selectedTarget p o = some t)
    (htc : lookupAssoc p.Tool.Microb.Target t = some tc)
    (hreq : tc.Requirements ≠ []) (hext : tc.Extras ≠ []) :
    ∃ e, NewConfigFromBytes p o uniq = .error e := by
  cases hfl : Flavor tc.Flavor with
  | none =>
    exact ⟨gs "NewConfigFromBytes: target uses unknown flavor",
      by simp [NewConfigFromBytes, hsel, resolveWithTarget, htc, hfl]⟩
  | some fl =>
    cases hv : GetPythonVersion (requiresPythonOf p)
        (if tc.PythonVersion = [] then o.ReadPythonVersion else tc.PythonVersion) with
    | error e =>
      exact ⟨e, by simp [NewConfigFromBytes, hsel, resolveWithTarget, htc, hfl, hv]⟩
    | ok pv =>
      exact ⟨gs "NewConfigFromBytes: using requirements is not allowed together with extras",
        by simp [NewConfigFromBytes, hsel, resolveWithTarget, htc, hfl, hv, hreq, hext]⟩

/-- Manifest whose default target sets both a requirements file and a
non-empty extras list. -/
def pyC3 : PyProject :=
  ⟨⟨gs "demo", [], [], [(gs "dev", [gs "pytest"])], gs ">=3.8,<3.12"⟩,
   ⟨⟨[(gs "default",
       { emptyTarget with Requirements := gs "requirements.txt", Extras := [gs "dev"] })]⟩,
    ⟨[], []⟩⟩⟩

/-- Witness for C3 at a concrete manifest. -/
theorem requirements_with_extras_always_fails_witness :
    ∃ e, NewConfigFromBytes pyC3 optsDefaultTarget id = .error e :=
  requirements_with_extras_always_fails pyC3 optsDefaultTarget id (gs "default")
    { emptyTarget with Requirements := gs "requirements.txt", Extras := [gs "dev"] }
    (by decide) (by decide) (by decide) (by decide)

/-! ## C1: run-to-run determinism -/

/-- Manifest with a duplicated dependency entry, whose de-duplication order
is up to the runtime. -/
def pyC1 : PyProject :=
  ⟨⟨gs "demo", [], [gs "b", gs "a", gs "b"], [], gs ">=3.8,<3.12"⟩,
   ⟨⟨[(gs "default", emptyTarget)]⟩, ⟨[], []⟩⟩⟩

/-- C1 counterexample: two faithful runs of resolution on the same manifest
and target (same bytes, same callbacks) may return differently ordered
`Dependencies` lists, because `utils.Unique` emits the keys of a Go map in
the runtime's iteration order; hence the resolved configurations are not
byte-identical. -/
theorem resolution_not_bytewise_deterministic :
    collectPythonDeps pyC1 [] = .ok [gs "b", gs "a", gs "b"] ∧
    UniqueSpec [gs "b", gs "a", gs "b"] (List.dedup [gs "b", gs "a", gs "b"]) ∧
    UniqueSpec [gs "b", gs "a", gs "b"]
      ((fun l => l.dedup.reverse) [gs "b", gs "a", gs "b"]) ∧
    (NewConfigFromBytes pyC1 optsDefaultTarget List.dedup).map Config.Dependencies
      = .ok [gs "a", gs "b"] ∧
    (NewConfigFromBytes pyC1 optsDefaultTarget (fun l => l.dedup.reverse)).map
      Config.Dependencies = .ok [gs "b", gs "a"] ∧
    (NewConfigFromBytes pyC1 optsDefaultTarget List.dedup).map Config.Dependencies ≠
      (NewConfigFromBytes pyC1 optsDefaultTarget (fun l => l.dedup.reverse)).map
        Config.Dependencies := by
  decide

/-- C1 (amended).  Two faithful runs of dependency resolution on the same
manifest and target agree up to permutation: both succeed, both outputs are
duplicate-free, and they are permutations of each other.  Byte-identical
output holds only when the runtime enumerates the de-duplication map in the
same order in both runs. -/
theorem resolution_deterministic_up_to_permutation (p : PyProject)
    (extras ds : List GoStr) (u1 u2 : List GoStr → List GoStr)
    (hc : collectPythonDeps p extras = .ok ds)
    (h1 : UniqueSpec ds (u1 ds)) (h2 : UniqueSpec ds (u2 ds)) :
    getPythonDeps p extras u1 = .ok (u1 ds) ∧
    getPythonDeps p extras u2 = .ok (u2 ds) ∧
    (u1 ds).Nodup ∧ (u2 ds).Nodup ∧ (u1 ds).Perm (u2 ds) := by
  refine ⟨by simp [getPythonDeps, hc, Except.map], by simp [getPythonDeps, hc, Except.map],
    h1.1, h2.1, ?_⟩
  rw [List.perm_ext_iff_of_nodup h1.1 h2.1]
  intro a
  constructor
  · intro ha
    exact h2.2.1 a (h1.2.2 a ha)
  · intro ha
    exact h1.2.1 a (h2.2.2 a ha)

/-- Witness for the amended C1 at the concrete manifest. -/
theorem resolution_deterministic_up_to_permutation_witness :
    getPythonDeps pyC1 [] List.dedup = .ok (List.dedup [gs "b", gs "a", gs "b"]) ∧
    (List.dedup [gs "b", gs "a", gs "b"]).Perm
      ((fun l => l.dedup.reverse) [gs "b", gs "a", gs "b"]) := by
  have h := resolution_deterministic_up_to_permutation pyC1 [] [gs "b", gs "a", gs "b"]
    List.dedup (fun l => l.dedup.reverse) (by decide) (by decide) (by decide)
  exact ⟨h.1, h.2.2.2.2⟩

/-! ## C4: inferred build packages -/

theorem nodup_append_singleton {l : List GoStr} {x : GoStr} (h : l.Nodup) (hx : x ∉ l) :
    (l ++ [x]).Nodup :=
  List.nodup_append.mpr ⟨h, List.nodup_singleton x, fun _ ha hax =>
    hx (List.mem_singleton.mp hax ▸ ha)⟩

theorem appendIfMissing_nodup {deps : List GoStr} {pkg : GoStr} (h : deps.Nodup) :
    (appendIfMissing deps pkg).Nodup := by
  unfold appendIfMissing
  split_ifs with h1 h2
  · exact List.nodup_singleton pkg
  · exact h
  · exact nodup_append_singleton h h2

/-- Manifest with a git+ssh dependency whose target already lists git among
the user-supplied build deps. -/
def pyC4 : PyProject :=
  ⟨⟨gs "demo", [], [gs "git+ssh://git@github.com/x/y.git"], [], gs ">=3.8,<3.12"⟩,
   ⟨⟨[(gs "default", { emptyTarget with BuildDeps := [gs "git"] })]⟩, ⟨[], []⟩⟩⟩

/-- C4 counterexample: `getBuildDeps` appends the inferred version-control
client unconditionally, so when the user build_deps already contain git the
resolved BuildDeps list holds git twice — the claimed "exactly once, no
duplicate package names, even when already user-supplied" fails, end to end
through `NewConfigFromBytes`. -/
theorem getBuildDeps_duplicates_user_supplied :
    isUsingSsh [gs "git+ssh://git@github.com/x/y.git"] = true ∧
    isUsingGit [gs "git+ssh://git@github.com/x/y.git"] = true ∧
    getBuildDeps [] [gs "git"] true true = [gs "git", gs "openssh-client", gs "git"] ∧
    (getBuildDeps [] [gs "git"] true true).count (gs "git") = 2 ∧
    ¬ (getBuildDeps [] [gs "git"] true true).Nodup ∧
    (NewConfigFromBytes pyC4 optsDefaultTarget List.dedup).map Config.BuildDeps
      = .ok [gs "git", gs "openssh-client", gs "git"] := by
  decide

/-- C4 (amended).  When the final dependency source contains a git+ssh
entry, both transport flags are set, and — provided the inferred package
names are not already user-supplied — the resolved BuildDeps list contains
the secure-shell client and the version-control client exactly once each,
contains jq exactly once when some index credential is secret-backed, and
stays duplicate-free; the dockerfile-level `updateBuildDeps` additionally
never introduces a duplicate itself. -/
theorem inferred_build_deps_exactly_once (indicesL : List Index)
    (buildDeps deps : List GoStr) (d : GoStr)
    (hd : d ∈ deps) (hds : goContains d (gs "git+ssh://") = true)
    (hng : gs "git" ∉ buildDeps) (hno : gs "openssh-client" ∉ buildDeps)
    (hnj : gs "jq" ∉ buildDeps) :
    isUsingSsh deps = true ∧ isUsingGit deps = true ∧
    (getBuildDeps indicesL buildDeps true true).count (gs "openssh-client") = 1 ∧
    (getBuildDeps indicesL buildDeps true true).count (gs "git") = 1 ∧
    (indicesL.any (fun i => !i.UsernameSecret.isEmpty || !i.PasswordSecret.isEmpty) = true →
      (getBuildDeps indicesL buildDeps true true).count (gs "jq") = 1) ∧
    (buildDeps.Nodup → (getBuildDeps indicesL buildDeps true true).Nodup) ∧
    (∀ c : Config, ∀ rs : Bool, c.BuildDeps.Nodup → (updateBuildDeps c rs).Nodup) := by
  have hssh : isUsingSsh deps = true :=
    List.any_eq_true.mpr ⟨d, hd, hds⟩
  have hgit : isUsingGit deps = true := by
    refine List.any_eq_true.mpr ⟨d, hd, ?_⟩
    rw [goContains_infix_iff] at hds ⊢
    exact List.IsInfix.trans (by decide) hds
  have co : buildDeps.count (gs "openssh-client") = 0 :=
    List.count_eq_zero_of_not_mem hno
  have cg : buildDeps.count (gs "git") = 0 :=
    List.count_eq_zero_of_not_mem hng
  have cj : buildDeps.count (gs "jq") = 0 :=
    List.count_eq_zero_of_not_mem hnj
  refine ⟨hssh, hgit, ?_, ?_, ?_, ?_, ?_⟩
  · by_cases hj : indicesL.any (fun i => !i.UsernameSecret.isEmpty || !i.PasswordSecret.isEmpty)
    · rw [show getBuildDeps indicesL buildDeps true true =
          buildDeps ++ [gs "openssh-client"] ++ [gs "git"] ++ [gs "jq"] from
            by simp [getBuildDeps, hj],
        List.count_append, List.count_append, List.count_append, co]
      decide
    · rw [show getBuildDeps indicesL buildDeps true true =
          buildDeps ++ [gs "openssh-client"] ++ [gs "git"] from by simp [getBuildDeps, hj],
        List.count_append, List.count_append, co]
      decide
  · by_cases hj : indicesL.any (fun i => !i.UsernameSecret.isEmpty || !i.PasswordSecret.isEmpty)
    · rw [show getBuildDeps indicesL buildDeps true true =
          buildDeps ++ [gs "openssh-client"] ++ [gs "git"] ++ [gs "jq"] from
            by simp [getBuildDeps, hj],
        List.count_append, List.count_append, List.count_append, cg]
      decide
    · rw [show getBuildDeps indicesL buildDeps true true =
          buildDeps ++ [gs "openssh-client"] ++ [gs "git"] from by simp [getBuildDeps, hj],
        List.count_append, List.count_append, cg]
      decide
  · intro hj
    rw [show getBuildDeps indicesL buildDeps true true =
        buildDeps ++ [gs "openssh-client"] ++ [gs "git"] ++ [gs "jq"] from
          by simp [getBuildDeps, hj],
      List.count_append, List.count_append, List.count_append, cj]
    decide
  · intro hbd
    have h1 : (buildDeps ++ [gs "openssh-client"]).Nodup :=
      nodup_append_singleton hbd hno
    have h2 : (buildDeps ++ [gs "openssh-client"] ++ [gs "git"]).Nodup := by
      refine nodup_append_singleton h1 ?_
      simp only [List.mem_append, List.mem_singleton]
      rintro (h | h)
      · exact hng h
      · exact absurd h (by decide)
    by_cases hj : indicesL.any (fun i => !i.UsernameSecret.isEmpty || !i.PasswordSecret.isEmpty)
    · have h3 : (buildDeps ++ [gs "openssh-client"] ++ [gs "git"] ++ [gs "jq"]).Nodup := by
        refine nodup_append_singleton h2 ?_
        simp only [List.mem_append, List.mem_singleton]
        rintro ((h | h) | h)
        · exact hnj h
        · exact absurd h (by decide)
        · exact absurd h (by decide)
      simpa [getBuildDeps, hj] using h3
    · simpa [getBuildDeps, hj] using h2
  · intro c rs hbd
    simp only [updateBuildDeps]
    split_ifs <;>
      repeat (first | exact hbd | apply appendIfMissing_nodup)

/-- Witness for the amended C4 at a concrete dependency and build-deps
list. -/
theorem inferred_build_deps_exactly_once_witness :
    (getBuildDeps [] [gs "cmake"] true true).count (gs "openssh-client") = 1 ∧
    (getBuildDeps [] [gs "cmake"] true true).count (gs "git") = 1 ∧
    (getBuildDeps [] [gs "cmake"] true true).Nodup := by
  have h := inferred_build_deps_exactly_once [] [gs "cmake"]
    [gs "git+ssh://git@github.com/x/y.git"] (gs "git+ssh://git@github.com/x/y.git")
    (by decide) (by decide) (by decide) (by decide) (by decide)
  exact ⟨h.2.2.1, h.2.2.2.1, h.2.2.2.2.2.1 (by decide)⟩

/-! ## C7/C8/C10: interpreter-version solving -/

/-- C7.  Under the constraint >=3.8,<3.12 with no explicit candidate the
resolver returns 3.11: the preference list is descending, its first entry
3.12 fails the upper bound, and 3.11 is the first entry satisfying the
constraint. -/
theorem preference_list_returns_311 :
    GetPythonVersion (gs ">=3.8,<3.12") (gs "") = .ok (gs "3.11") ∧
    NewConstraint (gs ">=3.8,<3.12") = some [(VOp.vge, [3, 8]), (VOp.vlt, [3, 12])] ∧
    checkAll [(VOp.vge, [3, 8]), (VOp.vlt, [3, 12])] [3, 12] = false ∧
    checkAll [(VOp.vge, [3, 8]), (VOp.vlt, [3, 12])] [3, 11] = true ∧
    ALLOWED_PYTHON_VERSIONS.head? = some (gs "3.12") := by
  decide

/-- C8.  An explicit interpreter version is returned exactly when it
satisfies the project constraint and otherwise fails with the
version-mismatch error; through `NewConfigFromBytes` a failing explicit
version means no Config is produced, and every produced Config carries
exactly the explicit version. -/
theorem explicit_version_validated (requires candidate : GoStr)
    (cs : List (VOp × List Nat)) (v : List Nat)
    (hreq : NewConstraint (trimSpace (firstLine requires)) = some cs)
    (hcand : trimSpace (firstLine candidate) ≠ [])
    (hv : NewVersion (trimSpace (firstLine candidate)) = some v) :
    (checkAll cs v = true →
      GetPythonVersion requires candidate = .ok (trimSpace (firstLine candidate))) ∧
    (checkAll cs v = false →
      GetPythonVersion requires candidate =
        .error (gs "GetPythonVersion: version does not satisfy the constraint")) ∧
    (∀ p o uniq t tc, selectedTarget p o = some t →
      lookupAssoc p.Tool.Microb.Target t = some tc →
      tc.PythonVersion = candidate → candidate ≠ [] →
      requiresPythonOf p = requires →
      checkAll cs v = false →
      ∃ e, NewConfigFromBytes p o uniq = .error e) ∧
    (∀ p o uniq t tc cfg, selectedTarget p o = some t →
      lookupAssoc p.Tool.Microb.Target t = some tc →
      tc.PythonVersion = candidate → candidate ≠ [] →
      requiresPythonOf p = requires →
      checkAll cs v = true →
      NewConfigFromBytes p o uniq = .ok cfg →
      cfg.PythonVersion = trimSpace (firstLine candidate)) := by
  have hok : checkAll cs v = true →
      GetPythonVersion requires candidate = .ok (trimSpace (firstLine candidate)) := by
    intro hch
    simp [GetPythonVersion, hreq, hcand, hv, hch]
  have herr : checkAll cs v = false →
      GetPythonVersion requires candidate =
        .error (gs "GetPythonVersion: version does not satisfy the constraint") := by
    intro hch
    simp [GetPythonVersion, hreq, hcand, hv, hch]
  refine ⟨hok, herr, ?_, ?_⟩
  · intro p o uniq t tc hsel htc hpv hcne hrq hch
    cases hfl : Flavor tc.Flavor with
    | none =>
      exact ⟨gs "NewConfigFromBytes: target uses unknown flavor",
        by simp [NewConfigFromBytes, hsel, resolveWithTarget, htc, hfl]⟩
    | some fl =>
      refine ⟨gs "GetPythonVersion: version does not satisfy the constraint", ?_⟩
      have hg : GetPythonVersion (requiresPythonOf p)
          (if tc.PythonVersion = [] then o.ReadPythonVersion else tc.PythonVersion) =
          .error (gs "GetPythonVersion: version does not satisfy the constraint") := by
        rw [hpv, if_neg hcne, hrq]
        exact herr hch
      simp [NewConfigFromBytes, hsel, resolveWithTarget, htc, hfl, hg]
  · intro p o uniq t tc cfg hsel htc hpv hcne hrq hch hcfg
    have hg : GetPythonVersion (requiresPythonOf p)
        (if tc.PythonVersion = [] then o.ReadPythonVersion else tc.PythonVersion) =
        .ok (trimSpace (firstLine candidate)) := by
      rw [hpv, if_neg hcne, hrq]
      exact hok hch
    simp only [NewConfigFromBytes, hsel, resolveWithTarget, htc, hg] at hcfg
    split at hcfg
    · cases hcfg
    · split at hcfg
      · cases hcfg
      · split at hcfg
        · cases hcfg
        · split at hcfg
          · cases hcfg
          · cases hcfg
            rfl

/-- Manifest with an explicit target interpreter version 3.13 against the
constraint >=3.8,<3.12. -/
def pyC8 : PyProject :=
  ⟨⟨gs "demo", [], [], [], gs ">=3.8,<3.12"⟩,
   ⟨⟨[(gs "default", { emptyTarget with PythonVersion := gs "3.13" })]⟩, ⟨[], []⟩⟩⟩

/-- Witness for C8: 3.13 against >=3.8,<3.12 fails, also through the full
resolver; 3.10 is returned verbatim. -/
theorem explicit_version_validated_witness :
    GetPythonVersion (gs ">=3.8,<3.12") (gs "3.13") =
      .error (gs "GetPythonVersion: version does not satisfy the constraint") ∧
    GetPythonVersion (gs ">=3.8,<3.12") (gs "3.10") = .ok (gs "3.10") ∧
    (∃ e, NewConfigFromBytes pyC8 optsDefaultTarget id = .error e) := by
  have h13 := explicit_version_validated (gs ">=3.8,<3.12") (gs "3.13")
    [(VOp.vge, [3, 8]), (VOp.vlt, [3, 12])] [3, 13]
    (by decide) (by decide) (by decide)
  have h10 := explicit_version_validated (gs ">=3.8,<3.12") (gs "3.10")
    [(VOp.vge, [3, 8]), (VOp.vlt, [3, 12])] [3, 10]
    (by decide) (by decide) (by decide)
  refine ⟨h13.2.1 (by decide), ?_, ?_⟩
  · have := h10.1 (by decide)
    rw [this]
    decide
  · exact h13.2.2.1 pyC8 optsDefaultTarget id (gs "default")
      { emptyTarget with PythonVersion := gs "3.13" }
      (by decide) (by decide) (by decide) (by decide) (by decide) (by decide)

/-! ### C10: first-line and whitespace handling -/

/-- A padding character: space or horizontal tab. -/
def isPad (c : Char) : Bool := c = ' ' || c = '\t'

theorem isPad_isSpace {c : Char} (h : isPad c = true) : goIsSpace c = true := by
  rcases Bool.or_eq_true_iff.mp h with h1 | h1
  · rw [of_decide_eq_true h1]; decide
  · rw [of_decide_eq_true h1]; decide

theorem isPad_ne_newline {c : Char} (h : isPad c = true) :
    (decide (c ≠ '\n')) = true := by
  rcases Bool.or_eq_true_iff.mp h with h1 | h1
  · rw [of_decide_eq_true h1]; decide
  · rw [of_decide_eq_true h1]; decide

theorem takeWhile_append_of_all {P : Char → Bool} {a : GoStr} (b : GoStr)
    (h : a.all P = true) : (a ++ b).takeWhile P = a ++ b.takeWhile P := by
  induction a with
  | nil => simp
  | cons x xs ih =>
    rw [List.all_cons, Bool.and_eq_true] at h
    simp [List.takeWhile_cons, h.1, ih h.2]

theorem takeWhile_append_of_not_all {P : Char → Bool} {a : GoStr} (b : GoStr)
    (h : ¬ a.all P = true) : (a ++ b).takeWhile P = a.takeWhile P := by
  induction a with
  | nil => simp at h
  | cons x xs ih =>
    by_cases hx : P x = true
    · have hxs : ¬ xs.all P = true := by
        intro hall
        exact h (by rw [List.all_cons, Bool.and_eq_true]; exact ⟨hx, hall⟩)
      simp [List.takeWhile_cons, hx, ih hxs]
    · simp [List.takeWhile_cons, hx]

theorem dropWhile_append_of_all {P : Char → Bool} {a : GoStr} (b : GoStr)
    (h : a.all P = true) : (a ++ b).dropWhile P = b.dropWhile P := by
  induction a with
  | nil => simp
  | cons x xs ih =>
    rw [List.all_cons, Bool.and_eq_true] at h
    simp [List.dropWhile_cons, h.1, ih h.2]

theorem dropWhile_append_of_not_all {P : Char → Bool} {a : GoStr} (b : GoStr)
    (h : ¬ a.all P = true) : (a ++ b).dropWhile P = a.dropWhile P ++ b := by
  induction a with
  | nil => simp at h
  | cons x xs ih =>
    by_cases hx : P x = true
    · have hxs : ¬ xs.all P = true := by
        intro hall
        exact h (by rw [List.all_cons, Bool.and_eq_true]; exact ⟨hx, hall⟩)
      simp [List.dropWhile_cons, hx, ih hxs]
    · simp [List.dropWhile_cons, hx]

theorem dropWhile_eq_nil_of_all {P : Char → Bool} {a : GoStr}
    (h : a.all P = true) : a.dropWhile P = [] := by
  have := dropWhile_append_of_all (P := P) [] h
  simpa using this

/-- Surrounding all-whitespace padding does not change trimSpace. -/
theorem trimSpace_pad_both (t p q : GoStr) (hp : p.all goIsSpace = true)
    (hq : q.all goIsSpace = true) : trimSpace (p ++ t ++ q) = trimSpace t := by
  rw [List.append_assoc]
  unfold trimSpace
  rw [dropWhile_append_of_all (t ++ q) hp]
  by_cases ht : t.all goIsSpace = true
  · rw [dropWhile_append_of_all q ht, dropWhile_eq_nil_of_all hq,
      dropWhile_eq_nil_of_all ht]
  · rw [dropWhile_append_of_not_all q ht, List.reverse_append,
      dropWhile_append_of_all _ (by simpa using hq)]

/-- The trimmed first line ignores space/tab padding around the text and
anything appended after a newline. -/
theorem firstLineTrim_pad (s p q r : GoStr) (hp : p.all isPad = true)
    (hq : q.all isPad = true) (hr : r = [] ∨ r.head? = some '\n') :
    trimSpace (firstLine (p ++ s ++ q ++ r)) = trimSpace (firstLine s) := by
  have hpP : p.all (fun c => decide (c ≠ '\n')) = true :=
    List.all_eq_true.mpr (fun c hc => isPad_ne_newline (List.all_eq_true.mp hp c hc))
  have hqP : q.all (fun c => decide (c ≠ '\n')) = true :=
    List.all_eq_true.mpr (fun c hc => isPad_ne_newline (List.all_eq_true.mp hq c hc))
  have hpS : p.all goIsSpace = true :=
    List.all_eq_true.mpr (fun c hc => isPad_isSpace (List.all_eq_true.mp hp c hc))
  have hqS : q.all goIsSpace = true :=
    List.all_eq_true.mpr (fun c hc => isPad_isSpace (List.all_eq_true.mp hq c hc))
  have hrP : r.takeWhile (fun c => decide (c ≠ '\n')) = [] := by
    rcases hr with h | h
    · rw [h]; rfl
    · cases r with
      | nil => rfl
      | cons x xs =>
        have : x = '\n' := by injection h
        rw [this]
        simp [List.takeWhile_cons]
  rw [List.append_assoc, List.append_assoc]
  by_cases hs : s.all (fun c => decide (c ≠ '\n')) = true
  · unfold firstLine
    rw [takeWhile_append_of_all _ hpP, takeWhile_append_of_all _ hs,
      takeWhile_append_of_all _ hqP, hrP, List.append_nil,
      List.takeWhile_eq_self_iff.mpr ?hall, ← List.append_assoc,
      trimSpace_pad_both s p q hpS hqS]
    case hall => exact fun c hc => List.all_eq_true.mp hs c hc
  · unfold firstLine
    rw [takeWhile_append_of_all _ hpP, takeWhile_append_of_not_all _ hs]
    have := trimSpace_pad_both (s.takeWhile (fun c => decide (c ≠ '\n'))) p [] hpS rfl
    rw [List.append_nil] at this
    exact this

/-- C10 counterexample: prepending a single whitespace character (a
newline) to the candidate changes the result of `GetPythonVersion`: the
first line becomes empty, so the pinned version is ignored and the
preference list answers instead. -/
theorem version_solving_leading_newline_changes_result :
    goIsSpace '\n' = true ∧
    GetPythonVersion (gs ">=3.8,<3.12") (gs "3.10") = .ok (gs "3.10") ∧
    GetPythonVersion (gs ">=3.8,<3.12") ('\n' :: gs "3.10") = .ok (gs "3.11") ∧
    GetPythonVersion (gs ">=3.8,<3.12") (gs "3.10") ≠
      GetPythonVersion (gs ">=3.8,<3.12") ('\n' :: gs "3.10") := by
  decide

/-- C10 (amended).  `GetPythonVersion` is invariant under space/tab padding
around either input and under appending a newline followed by arbitrary
further text (so a pinned-version file ending in a newline resolves
identically); prepending whitespace that contains a newline is not covered,
and indeed changes the result. -/
theorem version_solving_first_line_invariance
    (s c p q r p2 q2 r2 : GoStr)
    (hp : p.all isPad = true) (hq : q.all isPad = true)
    (hp2 : p2.all isPad = true) (hq2 : q2.all isPad = true)
    (hr : r = [] ∨ r.head? = some '\n') (hr2 : r2 = [] ∨ r2.head? = some '\n') :
    GetPythonVersion (p ++ s ++ q ++ r) (p2 ++ c ++ q2 ++ r2) =
      GetPythonVersion s c := by
  unfold GetPythonVersion
  rw [firstLineTrim_pad s p q r hp hq hr, firstLineTrim_pad c p2 q2 r2 hp2 hq2 hr2]

/-- Witness for the amended C10: trailing newline and padding do not change
the result. -/
theorem version_solving_first_line_invariance_witness :
    GetPythonVersion (gs "  >=3.8,<3.12 ") (gs "3.10" ++ gs "\n") =
      GetPythonVersion (gs ">=3.8,<3.12") (gs "3.10") := by
  have h := version_solving_first_line_invariance (gs ">=3.8,<3.12") (gs "3.10")
    (gs "  ") (gs " ") [] [] [] (gs "\n")
    (by decide) (by decide) (by decide) (by decide)
    (Or.inl rfl) (Or.inr rfl)
  simpa using h

/-! ## C9: multi-platform aggregation -/

/-- The normalized linux/amd64 platform. -/
def amd64P : Platform := ⟨gs "linux", gs "amd64", []⟩

/-- The normalized linux/arm64 platform. -/
def arm64P : Platform := ⟨gs "linux", gs "arm64", []⟩

/-- C9.  "linux/amd64,linux/arm64" parses to those two platforms in that
order; for either completion order of the two conversion tasks a successful
build returns an aggregate marked multi-platform whose platform slot array
follows the input order and whose namespaced entries are exactly the two
per-platform results; and when the linux/arm64 task fails, the build
returns only that error — no aggregate result, hence no linux/amd64 entry. -/
theorem multiplatform_aggregation_ordered (r1 r2 e : GoStr)
    (order : List Nat) (horder : order = [0, 1] ∨ order = [1, 0]) :
    parsePlatforms (gs "linux/amd64,linux/arm64") = .ok [amd64P, arm64P] ∧
    (runPlatformTasks [amd64P, arm64P] [.ok r1, .ok r2] order).map
      AggregateResult.exportPlatforms =
      .ok [some (gs "linux/amd64"), some (gs "linux/arm64")] ∧
    (runPlatformTasks [amd64P, arm64P] [.ok r1, .ok r2] order).map
      AggregateResult.multi = .ok true ∧
    (∃ agg, runPlatformTasks [amd64P, arm64P] [.ok r1, .ok r2] order = .ok agg ∧
      agg.entries.Perm [⟨gs "linux/amd64", r1⟩, ⟨gs "linux/arm64", r2⟩] ∧
      agg.entries.length = 2) ∧
    runPlatformTasks [amd64P, arm64P] [.ok r1, .error e] order = .error e := by
  have hparse : parsePlatforms (gs "linux/amd64,linux/arm64") = .ok [amd64P, arm64P] := by
    decide
  have hid0 : taskId [amd64P, arm64P] 0 = gs "linux/amd64" := by decide
  have hid1 : taskId [amd64P, arm64P] 1 = gs "linux/arm64" := by decide
  rcases horder with h | h <;> subst h
  · refine ⟨hparse, ?_, ?_, ?_, ?_⟩
    · simp [runPlatformTasks, Except.map, List.range_succ, hid0, hid1]
    · simp [runPlatformTasks, Except.map]
    · refine ⟨⟨[⟨gs "linux/amd64", r1⟩, ⟨gs "linux/arm64", r2⟩],
        [some (gs "linux/amd64"), some (gs "linux/arm64")], true⟩, ?_, ?_, ?_⟩
      · simp [runPlatformTasks, List.range_succ, hid0, hid1]
      · exact List.Perm.refl _
      · rfl
    · simp [runPlatformTasks]
  · refine ⟨hparse, ?_, ?_, ?_, ?_⟩
    · simp [runPlatformTasks, Except.map, List.range_succ, hid0, hid1]
    · simp [runPlatformTasks, Except.map]
    · refine ⟨⟨[⟨gs "linux/arm64", r2⟩, ⟨gs "linux/amd64", r1⟩],
        [some (gs "linux/amd64"), some (gs "linux/arm64")], true⟩, ?_, ?_, ?_⟩
      · simp [runPlatformTasks, List.range_succ, hid0, hid1]
      · exact List.Perm.swap _ _ _
      · rfl
    · simp [runPlatformTasks]

/-- Witness for C9 with the arm64 task completing first. -/
theorem multiplatform_aggregation_ordered_witness :
    (runPlatformTasks [amd64P, arm64P] [.ok (gs "imgA"), .ok (gs "imgB")] [1, 0]).map
      AggregateResult.exportPlatforms =
      .ok [some (gs "linux/amd64"), some (gs "linux/arm64")] ∧
    runPlatformTasks [amd64P, arm64P] [.ok (gs "imgA"), .error (gs "boom")] [1, 0] =
      .error (gs "boom") := by
  have h := multiplatform_aggregation_ordered (gs "imgA") (gs "imgB") (gs "boom")
    [1, 0] (Or.inr rfl)
  exact ⟨h.2.1, h.2.2.2.2⟩

end Microbuild
